import Mathlib

/-!
Verification development for the codecrafters-redis server (`src/main.rs`).

The file shallowly embeds the program:
* the wire-protocol codec (`parse_array`, `parse_bulk_string`, `parse_number`,
  and the encoders `send_string_array` / `send_bulk_string` /
  `send_simple_string`) as pure functions over byte lists (`List Nat`);
* the active async dispatcher `handle_request` together with the expiry
  tasks spawned by `SET ... PX` as a pure transition function over a
  `ServerState`;
* the event-loop variant of the list commands (`RPUSH`, `BLPOP`) and the
  `StopWaiting` timeout handler kept in the source as the alternative
  `handle_stream` implementation, as a transition system over `LoopState`;
* the stream-ID generator, which is absent from the source, modelled from
  the specification.

Theorems about each claim follow the definitions.
-/

namespace Redis

/-- Rust `usize::MAX` / `u64::MAX` on a 64-bit target: `str::parse::<usize>`
and `str::parse::<u64>` fail beyond this bound. -/
def USIZE_MAX : Nat := 18446744073709551615

/-- Whether a byte is an ASCII decimal digit, as tested by
`b.is_ascii_digit()` in `parse_number`. -/
def isAsciiDigit (b : Nat) : Bool := 48 ≤ b && b ≤ 57

/-- Whether a byte is a UTF-8 continuation byte (`0x80..=0xBF`). -/
def isCont (b : Nat) : Bool := 128 ≤ b && b ≤ 191

/-- Validity of a byte sequence as UTF-8, as checked by Rust's
`std::str::from_utf8` inside `parse_bulk_string`. -/
def validUtf8 : List Nat → Bool
  | [] => true
  | b :: rest =>
    if b ≤ 127 then validUtf8 rest
    else if 194 ≤ b && b ≤ 223 then
      match rest with
      | c1 :: rest2 => isCont c1 && validUtf8 rest2
      | _ => false
    else if b = 224 then
      match rest with
      | c1 :: c2 :: rest2 => (160 ≤ c1 && c1 ≤ 191) && isCont c2 && validUtf8 rest2
      | _ => false
    else if (225 ≤ b && b ≤ 236) || b = 238 || b = 239 then
      match rest with
      | c1 :: c2 :: rest2 => isCont c1 && isCont c2 && validUtf8 rest2
      | _ => false
    else if b = 237 then
      match rest with
      | c1 :: c2 :: rest2 => (128 ≤ c1 && c1 ≤ 159) && isCont c2 && validUtf8 rest2
      | _ => false
    else if b = 240 then
      match rest with
      | c1 :: c2 :: c3 :: rest2 =>
        (144 ≤ c1 && c1 ≤ 191) && isCont c2 && isCont c3 && validUtf8 rest2
      | _ => false
    else if 241 ≤ b && b ≤ 243 then
      match rest with
      | c1 :: c2 :: c3 :: rest2 => isCont c1 && isCont c2 && isCont c3 && validUtf8 rest2
      | _ => false
    else if b = 244 then
      match rest with
      | c1 :: c2 :: c3 :: rest2 =>
        (128 ≤ c1 && c1 ≤ 143) && isCont c2 && isCont c3 && validUtf8 rest2
      | _ => false
    else false

/-- nom's `char(c)`: consume one byte equal to `c`, fail otherwise. -/
def parseChar (c : Nat) : List Nat → Option (List Nat)
  | [] => none
  | b :: rest => if b = c then some rest else none

/-- nom's `tag("\r\n")`: consume the two bytes CR LF. -/
def parseCrlf : List Nat → Option (List Nat)
  | 13 :: 10 :: rest => some rest
  | _ => none

/-- `parse_number`: `map_res(take_while(is_ascii_digit) >> from_utf8, parse::<usize>)`.
`take_while` takes zero or more digit bytes; `str::parse` fails on the empty
string and on overflow past `usize::MAX`. -/
def parseNumber (input : List Nat) : Option (Nat × List Nat) :=
  let digits := input.takeWhile isAsciiDigit
  if digits.isEmpty then none
  else
    let v := digits.foldl (fun a d => 10 * a + (d - 48)) 0
    if v ≤ USIZE_MAX then some (v, input.dropWhile isAsciiDigit) else none

/-- `parse_bulk_string`: `'$' >> parse_number >> "\r\n"`, then
`map_res(terminated(take(len), tag("\r\n")), std::str::from_utf8)`.
`take(len)` fails when fewer than `len` bytes remain; `from_utf8` fails
on invalid UTF-8. Returns the payload bytes and the remaining input. -/
def parseBulkString (input : List Nat) : Option (List Nat × List Nat) :=
  match parseChar 36 input with
  | none => none
  | some r1 =>
    match parseNumber r1 with
    | none => none
    | some (len, r2) =>
      match parseCrlf r2 with
      | none => none
      | some r3 =>
        if len ≤ r3.length then
          match parseCrlf (r3.drop len) with
          | none => none
          | some r4 =>
            if validUtf8 (r3.take len) then some (r3.take len, r4) else none
        else none

/-- nom's `many(0..=n, parse_bulk_string)` as used in `parse_array`:
apply `parse_bulk_string` at most `n` times, stopping (without error,
since the lower bound is 0) at the first failure. -/
def manyUpTo (n : Nat) (input : List Nat) : List (List Nat) × List Nat :=
  match n with
  | 0 => ([], input)
  | Nat.succ m =>
    match parseBulkString input with
    | none => ([], input)
    | some (a, rest) =>
      let res := manyUpTo m rest
      (a :: res.1, res.2)

/-- `parse_array`: `'*' >> parse_number >> "\r\n"` followed by
`many(0..=num_elements, parse_bulk_string)`. -/
def parseArray (input : List Nat) : Option (List (List Nat) × List Nat) :=
  match parseChar 42 input with
  | none => none
  | some r1 =>
    match parseNumber r1 with
    | none => none
    | some (n, r2) =>
      match parseCrlf r2 with
      | none => none
      | some r3 => some (manyUpTo n r3)

/-- Decimal representation of a natural number as ASCII bytes, as produced
by Rust's `format!("{}", n)` for the length prefixes in `send_bulk_string`
and `send_string_array`. -/
def natDecimal (n : Nat) : List Nat :=
  if h : n < 10 then [n + 48]
  else natDecimal (n / 10) ++ [n % 10 + 48]
decreasing_by exact Nat.div_lt_self (by omega) (by omega)

/-- CR LF. -/
def crlf : List Nat := [13, 10]

/-- The bytes written by `send_bulk_string`: `$<len>\r\n<data>\r\n`, where
`len` is the byte length of the payload. -/
def encodeBulkString (s : List Nat) : List Nat :=
  36 :: natDecimal s.length ++ crlf ++ s ++ crlf

/-- The bytes written by `send_string_array` — the same array-of-bulk-strings
frame shape a client request uses: `*<n>\r\n` followed by each element as a
bulk string. -/
def encodeRequest (args : List (List Nat)) : List Nat :=
  42 :: natDecimal args.length ++ crlf ++ (args.map encodeBulkString).flatten

/-- A reply value, covering every shape the source writes:
`send_simple_string`, `send_bulk_string`, `send_null_bulk_string`,
`send_integer`, `send_string_array`. -/
inductive Reply where
  | simple (s : String)
  | bulk (s : String)
  | nullBulk
  | integer (n : Nat)
  | array (elems : List String)
  deriving DecidableEq

/-- Wire encoding of a reply, matching the `format!` strings of the senders
(`+{s}\r\n`, `${len}\r\n{s}\r\n` with byte length, `$-1\r\n`, `:{n}\r\n`,
`*{n}\r\n` + bulk strings). -/
def encodeReply : Reply → String
  | .simple s => "+" ++ s ++ "\r\n"
  | .bulk s => "$" ++ toString s.utf8ByteSize ++ "\r\n" ++ s ++ "\r\n"
  | .nullBulk => "$-1\r\n"
  | .integer n => ":" ++ toString n ++ "\r\n"
  | .array elems =>
    "*" ++ toString elems.length ++ "\r\n" ++
      String.join (elems.map (fun s =>
        "$" ++ toString s.utf8ByteSize ++ "\r\n" ++ s ++ "\r\n"))

/-- Lookup in a `HashMap` modelled as an association list with unique keys
(`db.values.get`). -/
def lookupVal : List (String × String) → String → Option String
  | [], _ => none
  | (k', v) :: rest, k => if k' = k then some v else lookupVal rest k

/-- `HashMap::insert`: replace an existing binding, or add one. -/
def insertVal : List (String × String) → String → String → List (String × String)
  | [], k, v => [(k, v)]
  | (k', v') :: rest, k, v =>
    if k' = k then (k, v) :: rest else (k', v') :: insertVal rest k v

/-- `HashMap::remove`: drop the binding for the key, if present. -/
def removeVal : List (String × String) → String → List (String × String)
  | [], _ => []
  | (k', v') :: rest, k => if k' = k then rest else (k', v') :: removeVal rest k

/-- Rust `str::parse::<u64>` on a client-supplied argument: an optional
leading `+`, then one or more ASCII digits, value at most `u64::MAX`. -/
def parseU64 (s : String) : Option Nat :=
  let ds := match s.toList with
            | '+' :: rest => rest
            | cs => cs
  if ds.isEmpty then none
  else if ds.all Char.isDigit then
    let v := ds.foldl (fun a c => 10 * a + (c.toNat - 48)) 0
    if v ≤ USIZE_MAX then some v else none
  else none

/-- State of the active async server: the string keyspace `db.values`,
plus the removal tasks spawned by `SET ... PX` (each holds an absolute
deadline and the captured key; when the executor runs the task after its
timer elapses, the task removes the key unconditionally). -/
structure ServerState where
  values : List (String × String)
  timers : List (Nat × String)
  deriving DecidableEq

/-- Result of handling one request: either a (possibly absent) reply and a
new state, or a panic of the handling task (an `unwrap` failure). -/
inductive Outcome where
  | ok (st : ServerState) (reply : Option Reply)
  | panicked
  deriving DecidableEq

/-- The active dispatcher `handle_request`, embedded over `ServerState`.
Mirrors the source `match request.as_slice()` arm for arm:
`["PING"]` replies with a *bulk* string `PONG`; `["ECHO", m]` echoes;
`["GET", k]` looks the key up with no deadline check and no eviction;
`["SET", k, v]` inserts unconditionally; `["SET", k, v, "PX", ms]` inserts,
then `ms.parse().unwrap()` — a parse failure panics — and spawns a removal
task with deadline `now + ms`; every other request falls to `_ => {}`,
producing no reply and no state change. -/
def handleRequest (request : List String) (st : ServerState) (now : Nat) : Outcome :=
  match request with
  | ["PING"] => .ok st (some (.bulk "PONG"))
  | ["ECHO", message] => .ok st (some (.bulk message))
  | ["GET", key] =>
    match lookupVal st.values key with
    | some value => .ok st (some (.bulk value))
    | none => .ok st (some .nullBulk)
  | ["SET", key, value] =>
    .ok { st with values := insertVal st.values key value } (some (.simple "OK"))
  | ["SET", key, value, "PX", timeout_ms] =>
    match parseU64 timeout_ms with
    | none => .panicked
    | some ms =>
      .ok { values := insertVal st.values key value,
            timers := st.timers ++ [(now + ms, key)] } (some (.simple "OK"))
  | _ => .ok st none

/-- The body of the task spawned by `SET ... PX`, run once its timer has
elapsed: `db.borrow_mut().values.remove(&key)` — the key is removed
unconditionally, whatever value is stored there by then. The finished
task leaves the pending-task list. -/
def fireTimer (st : ServerState) (t : Nat × String) : ServerState :=
  { values := removeVal st.values t.2, timers := st.timers.erase t }

namespace EventLoop

/-- The source's `struct List`: the list's elements (`content`) and the FIFO
queue of file descriptors of blocked `BLPOP` callers (`waiting`,
a `VecDeque<RawFd>`, front at the head). Named `KList` because `List` is
taken by Lean's list type. -/
structure KList where
  content : List String
  waiting : List Nat
  deriving DecidableEq

/-- The reactor events relevant to lists (`Event::StopWaiting`) and string
expiry (`Event::InvalidateEntry`). -/
inductive REvent where
  | InvalidateEntry (key : String)
  | StopWaiting (fd : Nat) (key : String)
  deriving DecidableEq

/-- `db.lists.get(&key)` on an association-list model of the `HashMap`. -/
def lookupList : List (String × KList) → String → Option KList
  | [], _ => none
  | (k', l) :: rest, k => if k' = k then some l else lookupList rest k

/-- `db.lists.entry(key).or_default()`: the stored list, or an empty one. -/
def getList (ls : List (String × KList)) (k : String) : KList :=
  (lookupList ls k).getD ⟨[], []⟩

/-- Store back a list under its key (replace or append the binding). -/
def setList : List (String × KList) → String → KList → List (String × KList)
  | [], k, l => [(k, l)]
  | (k', l') :: rest, k, l =>
    if k' = k then (k, l) :: rest else (k', l') :: setList rest k l

/-- `BTreeMap<Instant, Event>::insert` on a deadline-sorted association list
with unique keys: an equal deadline *replaces* the stored event. This is
`Reactor::register_timeout`. -/
def btreeInsert : List (Nat × REvent) → Nat → REvent → List (Nat × REvent)
  | [], t, e => [(t, e)]
  | (t', e') :: rest, t, e =>
    if t < t' then (t, e) :: (t', e') :: rest
    else if t = t' then (t, e) :: rest
    else (t', e') :: btreeInsert rest t e

/-- State of the event-loop variant: the list keyspace, the reactor's
timeout map, and the log of replies written so far, as `(fd, reply)`
pairs in send order. -/
structure LoopState where
  lists : List (String × KList)
  timeouts : List (Nat × REvent)
  outputs : List (Nat × Reply)
  deriving DecidableEq

/-- The wake-up loop shared by the `RPUSH`/`LPUSH` arms:
`while !content.is_empty() && !waiting.is_empty()`, pop the front waiter,
drain the front element, and send `[key, element]` to that waiter. Returns
the final list and the extended output log. The reactor's timeout map is
not touched. -/
def wakeLoop (key : String) :
    List String → List Nat → List (Nat × Reply) →
      (List String × List Nat) × List (Nat × Reply)
  | e :: c', wfd :: w', out =>
    wakeLoop key c' w' (out ++ [(wfd, Reply.array [key, e])])
  | c, w, out => ((c, w), out)

/-- The `"RPUSH"` arm of `handle_stream`: append the values, send the new
length to the pusher, then run the wake-up loop. -/
def rpush (st : LoopState) (fd : Nat) (key : String) (vals : List String) :
    LoopState :=
  let l0 := getList st.lists key
  let content := l0.content ++ vals
  let out := st.outputs ++ [(fd, Reply.integer content.length)]
  let res := wakeLoop key content l0.waiting out
  { st with lists := setList st.lists key ⟨res.1.1, res.1.2⟩, outputs := res.2 }

/-- The `"BLPOP"` arm of `handle_stream`: with data present, drain the front
element and reply `[key, element]` immediately; with an empty list, register
a `StopWaiting` timeout when the parsed timeout is positive (`deadline =
some d`; `timeout 0` registers nothing, modelled `none`) and push the caller
onto the `waiting` queue. -/
def blpop (st : LoopState) (fd : Nat) (key : String) (deadline : Option Nat) :
    LoopState :=
  let l := getList st.lists key
  match l.content with
  | [] =>
    let ts := match deadline with
              | some d => btreeInsert st.timeouts d (.StopWaiting fd key)
              | none => st.timeouts
    { st with
        lists := setList st.lists key { l with waiting := l.waiting ++ [fd] },
        timeouts := ts }
  | e :: c' =>
    { st with
        lists := setList st.lists key { l with content := c' },
        outputs := st.outputs ++ [(fd, Reply.array [key, e])] }

/-- First index of `fd` in a waiting queue:
`list.waiting.iter().position(|val| *val == fd)`. -/
def position : List Nat → Nat → Option Nat
  | [], _ => none
  | x :: rest, fd =>
    if x = fd then some 0 else (position rest fd).map Nat.succ

/-- The `Event::StopWaiting(fd, key)` arm of the event loop, run after the
reactor has popped the timeout entry whose deadline passed:
`db.lists.get_mut(&key).unwrap()` (`none` models the unwrap panic when the
key is absent); if `fd` is still in the `waiting` queue, remove that
occurrence and send a null bulk string, otherwise do nothing. -/
def stopWaiting (st : LoopState) (fd : Nat) (key : String) : Option LoopState :=
  match lookupList st.lists key with
  | none => none
  | some l =>
    match position l.waiting fd with
    | some i =>
      some { st with
               lists := setList st.lists key { l with waiting := l.waiting.eraseIdx i },
               outputs := st.outputs ++ [(fd, Reply.nullBulk)] }
    | none => some st

end EventLoop

/-- A stream entry ID error, per the spec's taxonomy. -/
inductive IdError where
  | invalid
  | reserved
  deriving DecidableEq

/-- Modelled from the spec: streams and `XADD` are absent from `src/main.rs`
(the dispatcher has no `"XADD"` arm), so `generate_entry_id` is taken from
spec §4.5 verbatim: requested milliseconds below the stream's last ID are
`Invalid`; equal milliseconds auto-increment the sequence when it is
omitted, accept a strictly larger sequence, reject `0-0` as `Reserved`, and
reject any other non-increasing sequence as `Invalid`; larger milliseconds
are accepted with the sequence defaulting to 0. `last` is `(0,0)` for an
empty stream. -/
def generateEntryId (last : Nat × Nat) (ms : Nat) (seq : Option Nat) :
    Except IdError (Nat × Nat) :=
  if ms < last.1 then .error .invalid
  else if ms = last.1 then
    match seq with
    | none => .ok (ms, last.2 + 1)
    | some s =>
      if s > last.2 then .ok (ms, s)
      else if ms = 0 ∧ s = 0 then .error .reserved
      else .error .invalid
  else .ok (ms, seq.getD 0)

/-- Strict lexicographic order on stream entry IDs `(milliseconds, sequence)`. -/
def idLt (a b : Nat × Nat) : Prop :=
  a.1 < b.1 ∨ (a.1 = b.1 ∧ a.2 < b.2)

instance (a b : Nat × Nat) : Decidable (idLt a b) := by
  unfold idLt; infer_instance

theorem natDecimal_ne_nil (n : Nat) : natDecimal n ≠ [] := by
  unfold natDecimal; split <;> simp

theorem natDecimal_digits (n : Nat) : ∀ b ∈ natDecimal n, isAsciiDigit b = true := by
  induction n using Nat.strong_induction_on with
  | _ n ih =>
    unfold natDecimal
    split
    · rename_i h
      intro b hb
      simp only [List.mem_singleton] at hb
      subst hb
      simp only [isAsciiDigit, Bool.and_eq_true, decide_eq_true_eq]
      omega
    · rename_i h
      intro b hb
      rcases List.mem_append.mp hb with hb | hb
      · exact ih (n / 10) (Nat.div_lt_self (by omega) (by omega)) b hb
      · simp only [List.mem_singleton] at hb
        subst hb
        simp only [isAsciiDigit, Bool.and_eq_true, decide_eq_true_eq]
        omega

theorem natDecimal_foldl (n : Nat) : ∀ acc : Nat,
    (natDecimal n).foldl (fun a d => 10 * a + (d - 48)) acc
      = acc * 10 ^ (natDecimal n).length + n := by
  induction n using Nat.strong_induction_on with
  | _ n ih =>
    intro acc
    unfold natDecimal
    split
    · rename_i h
      simp only [List.foldl_cons, List.foldl_nil, List.length_singleton, pow_one]
      omega
    · rename_i h
      rw [List.foldl_append, ih (n / 10) (Nat.div_lt_self (by omega) (by omega)) acc]
      simp only [List.foldl_cons, List.foldl_nil, List.length_append,
        List.length_singleton, pow_succ]
      have h48 : n % 10 + 48 - 48 = n % 10 := by omega
      rw [h48]
      have hr : 10 * (acc * 10 ^ (natDecimal (n / 10)).length + n / 10)
          = acc * (10 ^ (natDecimal (n / 10)).length * 10) + 10 * (n / 10) := by ring
      omega

theorem takeWhile_all_append (p : Nat → Bool) (l1 : List Nat) (c : Nat) (l2 : List Nat)
    (h1 : ∀ b ∈ l1, p b = true) (h2 : p c = false) :
    (l1 ++ c :: l2).takeWhile p = l1 ∧ (l1 ++ c :: l2).dropWhile p = c :: l2 := by
  induction l1 with
  | nil => simp [List.takeWhile, List.dropWhile, h2]
  | cons b rest ih =>
    have hb : p b = true := h1 b (by simp)
    have hrest : ∀ x ∈ rest, p x = true := fun x hx => h1 x (by simp [hx])
    obtain ⟨ht, hd⟩ := ih hrest
    simp [List.takeWhile_cons, List.dropWhile_cons, hb, ht, hd]

theorem parseNumber_natDecimal (n : Nat) (hle : n ≤ USIZE_MAX) (rest : List Nat) :
    parseNumber (natDecimal n ++ 13 :: rest) = some (n, 13 :: rest) := by
  have h13 : isAsciiDigit 13 = false := by decide
  obtain ⟨ht, hd⟩ :=
    takeWhile_all_append isAsciiDigit (natDecimal n) 13 rest (natDecimal_digits n) h13
  have hne : (natDecimal n).isEmpty = false := by
    cases hx : natDecimal n with
    | nil => exact absurd hx (natDecimal_ne_nil n)
    | cons a l => rfl
  unfold parseNumber
  rw [ht, hd]
  simp only [hne, Bool.false_eq_true, if_false, natDecimal_foldl n 0,
    Nat.zero_mul, Nat.zero_add, if_pos hle]

theorem parseBulkString_encodeBulkString (e rest : List Nat)
    (hv : validUtf8 e = true) (hl : e.length ≤ USIZE_MAX) :
    parseBulkString (encodeBulkString e ++ rest) = some (e, rest) := by
  have hshape : encodeBulkString e ++ rest
      = 36 :: (natDecimal e.length ++ 13 :: (10 :: (e ++ 13 :: 10 :: rest))) := by
    simp [encodeBulkString, crlf]
  rw [hshape]
  have hlen : e.length ≤ (e ++ 13 :: 10 :: rest).length := by
    simp [List.length_append]
  unfold parseBulkString
  simp only [parseChar, if_true,
    parseNumber_natDecimal e.length hl (10 :: (e ++ 13 :: 10 :: rest)), parseCrlf,
    if_pos hlen, List.drop_left e (13 :: 10 :: rest), List.take_left e (13 :: 10 :: rest),
    if_pos hv]

theorem manyUpTo_flatten (args : List (List Nat))
    (h : ∀ e ∈ args, validUtf8 e = true ∧ e.length ≤ USIZE_MAX) :
    manyUpTo args.length (args.map encodeBulkString).flatten = (args, []) := by
  induction args with
  | nil => simp [manyUpTo]
  | cons e rest ih =>
    obtain ⟨hv, hl⟩ := h e (by simp)
    have hrest : ∀ x ∈ rest, validUtf8 x = true ∧ x.length ≤ USIZE_MAX :=
      fun x hx => h x (List.mem_cons_of_mem _ hx)
    simp only [List.map_cons, List.flatten_cons, List.length_cons, manyUpTo,
      parseBulkString_encodeBulkString e _ hv hl, ih hrest]

/-- C5: decoding the request frame produced by encoding an argument vector of
bulk strings gives back exactly that vector (with no residual input). The
elements must be valid UTF-8 (the decoder validates payloads) and the
lengths must fit in `usize` (the decoder's `str::parse::<usize>` bound);
every Rust `Vec<String>` satisfies both. -/
theorem C5_decode_encode_roundtrip (args : List (List Nat))
    (hn : args.length ≤ USIZE_MAX)
    (h : ∀ e ∈ args, validUtf8 e = true ∧ e.length ≤ USIZE_MAX) :
    parseArray (encodeRequest args) = some (args, []) := by
  have hshape : encodeRequest args
      = 42 :: (natDecimal args.length ++ 13 :: (10 :: (args.map encodeBulkString).flatten)) := by
    simp [encodeRequest, crlf]
  rw [hshape]
  unfold parseArray
  simp only [parseChar, if_true,
    parseNumber_natDecimal args.length hn (10 :: (args.map encodeBulkString).flatten),
    parseCrlf, manyUpTo_flatten args h]

/-- C5 witness: the round trip at the concrete request `["hi", ""]`. -/
theorem C5_decode_encode_roundtrip_witness :
    parseArray (encodeRequest [[104, 105], []]) = some ([[104, 105], []], []) :=
  C5_decode_encode_roundtrip [[104, 105], []] (by decide) (by decide)

/-- C8 counterexample: the frame `*2\r\n$1\r\na\r\n` declares two elements but
contains only one; `parse_array` nevertheless succeeds, returning the single
element `"a"` — it does not signal a `ProtocolError`. The claim that a
successful decode returns exactly the declared count, and that fewer
well-formed elements is an error, is therefore false of the code. -/
theorem C8_counterexample :
    parseArray [42, 50, 13, 10, 36, 49, 13, 10, 97, 13, 10] = some ([[97]], [])
    ∧ ([[97]] : List (List Nat)).length ≠ 2 := by
  exact ⟨by decide, by decide⟩

theorem manyUpTo_length_le (n : Nat) (input : List Nat) :
    (manyUpTo n input).1.length ≤ n := by
  induction n generalizing input with
  | zero => simp [manyUpTo]
  | succ m ih =>
    unfold manyUpTo
    cases hp : parseBulkString input with
    | none => simp
    | some pr =>
      cases pr with
      | mk a rest => simpa using ih rest

/-- C8 (amended): once the array header `*<n>\r\n` parses, `parse_array`
always succeeds, returning the elements collected by
`many(0..=n, parse_bulk_string)` — at most `n` of them; an input with fewer
than `n` well-formed bulk strings yields a successful parse of the shorter
vector, not a `ProtocolError`. -/
theorem C8_decode_at_most_declared (input r1 r2 r3 : List Nat) (n : Nat)
    (h1 : parseChar 42 input = some r1)
    (h2 : parseNumber r1 = some (n, r2))
    (h3 : parseCrlf r2 = some r3) :
    parseArray input = some (manyUpTo n r3) ∧ (manyUpTo n r3).1.length ≤ n := by
  unfold parseArray
  simp only [h1, h2, h3]
  exact ⟨trivial, manyUpTo_length_le n r3⟩

/-- C8 witness: the amended theorem at the truncated frame `*2\r\n$1\r\na\r\n`. -/
theorem C8_decode_at_most_declared_witness :
    parseArray [42, 50, 13, 10, 36, 49, 13, 10, 97, 13, 10]
      = some (manyUpTo 2 [36, 49, 13, 10, 97, 13, 10])
    ∧ (manyUpTo 2 [36, 49, 13, 10, 97, 13, 10]).1.length ≤ 2 :=
  C8_decode_at_most_declared [42, 50, 13, 10, 36, 49, 13, 10, 97, 13, 10]
    [50, 13, 10, 36, 49, 13, 10, 97, 13, 10] [13, 10, 36, 49, 13, 10, 97, 13, 10]
    [36, 49, 13, 10, 97, 13, 10] 2 (by decide) (by decide) (by decide)

/-- C10 counterexample: the frame `*1\r\n$1\r\n<0xFF>\r\n` carries a bulk
string whose payload byte `0xFF` is not valid UTF-8, yet decoding does not
fail: `parse_array` returns a successful (empty) parse, so the connection
is not closed. -/
theorem C10_counterexample :
    parseArray [42, 49, 13, 10, 36, 49, 13, 10, 255, 13, 10]
      = some ([], [36, 49, 13, 10, 255, 13, 10])
    ∧ validUtf8 [255] = false := by
  exact ⟨by decide, by decide⟩

theorem parseBulkString_validUtf8 (input d r : List Nat)
    (h : parseBulkString input = some (d, r)) : validUtf8 d = true := by
  unfold parseBulkString at h
  split at h
  · cases h
  split at h
  · cases h
  split at h
  · cases h
  split at h
  · split at h
    · cases h
    split at h
    · rename_i hvalid
      injection h with h'
      have hd : _ = d := congrArg Prod.fst h'
      rw [← hd]
      exact hvalid
    · cases h
  · cases h

theorem manyUpTo_validUtf8 (n : Nat) (input : List Nat) :
    ∀ e ∈ (manyUpTo n input).1, validUtf8 e = true := by
  induction n generalizing input with
  | zero => simp [manyUpTo]
  | succ m ih =>
    unfold manyUpTo
    cases hp : parseBulkString input with
    | none => simp
    | some pr =>
      cases pr with
      | mk a rest =>
        intro e he
        simp only [List.mem_cons] at he
        rcases he with rfl | he
        · exact parseBulkString_validUtf8 input e rest hp
        · exact ih rest e he

/-- C10 (amended): an invalid-UTF-8 bulk-string payload does not make the
whole decode fail — `many(0..=n, ...)` stops at the offending element and
`parse_array` returns the elements parsed before it, so the connection stays
open; nevertheless every element of a successful decode passed the
`from_utf8` check, so every argument handed to the dispatcher is valid
UTF-8. -/
theorem C10_decoded_args_valid_utf8 (input : List Nat) (elems : List (List Nat))
    (rest : List Nat) (h : parseArray input = some (elems, rest)) :
    ∀ e ∈ elems, validUtf8 e = true := by
  unfold parseArray at h
  cases hc : parseChar 42 input with
  | none => simp [hc] at h
  | some r1 =>
    simp only [hc] at h
    cases hn : parseNumber r1 with
    | none => simp [hn] at h
    | some pr =>
      obtain ⟨n, r2⟩ := pr
      simp only [hn] at h
      cases hcr : parseCrlf r2 with
      | none => simp [hcr] at h
      | some r3 =>
        simp only [hcr] at h
        injection h with h'
        have he : (manyUpTo n r3).1 = elems := congrArg Prod.fst h'
        rw [← he]
        exact manyUpTo_validUtf8 n r3

/-- C10 witness: the amended theorem at the frame `*1\r\n$1\r\na\r\n`,
whose decoded argument `"a"` is valid UTF-8. -/
theorem C10_decoded_args_valid_utf8_witness : validUtf8 [97] = true :=
  C10_decoded_args_valid_utf8 [42, 49, 13, 10, 36, 49, 13, 10, 97, 13, 10]
    [[97]] [] (by decide) [97] (by decide)

/-- C1 counterexample: with `"k" ↦ "v"` stored and a pending expiry task
whose deadline 5 has already passed at `now = 10`, `GET k` does not evict
and does not return null — it returns the stored value, leaving state
(including the expired entry) unchanged. `GET` in the source never
consults deadlines. -/
theorem C1_counterexample :
    handleRequest ["GET", "k"] ⟨[("k", "v")], [(5, "k")]⟩ 10
      = .ok ⟨[("k", "v")], [(5, "k")]⟩ (some (.bulk "v")) := by decide

/-- C1 (amended): `GET` performs no expiry at all: it replies with the
stored value whenever the key is present in the map — regardless of any
passed deadline — and null when absent, never changing the state; expired
entries are removed only when the `SET ... PX` timer task runs. -/
theorem C1_get_never_evicts (k : String) (st : ServerState) (now : Nat) :
    handleRequest ["GET", k] st now
      = .ok st (some ((lookupVal st.values k).elim Reply.nullBulk Reply.bulk)) := by
  show (match lookupVal st.values k with
        | some value => Outcome.ok st (some (.bulk value))
        | none => Outcome.ok st (some .nullBulk)) = _
  cases lookupVal st.values k <;> rfl

theorem lookupVal_insertVal (m : List (String × String)) (k v : String) :
    lookupVal (insertVal m k v) k = some v := by
  induction m with
  | nil => simp [insertVal, lookupVal]
  | cons p rest ih =>
    obtain ⟨k', v'⟩ := p
    by_cases h : k' = k
    · simp [insertVal, lookupVal, h]
    · simp [insertVal, lookupVal, h, ih]

/-- C2 counterexample: `SET k v1 PX 100` at time 0 schedules a removal task
with deadline 100; a later plain `SET k v2` overwrites the value but leaves
that task pending; when the task runs it removes `k` unconditionally — the
earlier SET's expiry removes the newly stored value. -/
theorem C2_counterexample :
    handleRequest ["SET", "k", "v1", "PX", "100"] ⟨[], []⟩ 0
      = .ok ⟨[("k", "v1")], [(100, "k")]⟩ (some (.simple "OK"))
    ∧ handleRequest ["SET", "k", "v2"] ⟨[("k", "v1")], [(100, "k")]⟩ 50
      = .ok ⟨[("k", "v2")], [(100, "k")]⟩ (some (.simple "OK"))
    ∧ fireTimer ⟨[("k", "v2")], [(100, "k")]⟩ (100, "k") = ⟨[], []⟩
    ∧ lookupVal ([] : List (String × String)) "k" = none := by decide

/-- C2 (amended): `SET k v` does overwrite unconditionally and reply `OK`,
but it cancels nothing: the pending timer list is untouched, and a pending
timer task, when it runs, removes whatever value the key holds then. -/
theorem C2_set_overwrites_without_cancelling (k v : String) (st : ServerState)
    (now : Nat) :
    handleRequest ["SET", k, v] st now
      = .ok { st with values := insertVal st.values k v } (some (.simple "OK"))
    ∧ lookupVal (insertVal st.values k v) k = some v
    ∧ ∀ t : Nat × String, fireTimer st t
        = { values := removeVal st.values t.2, timers := st.timers.erase t } :=
  ⟨rfl, lookupVal_insertVal st.values k v, fun _ => rfl⟩

/-- C6: the dispatcher silently drops unknown commands and malformed
argument counts: `["FOO"]` (unknown command) and `["GET"]` (missing key)
both fall to the `_ => {}` arm of `handle_request` — no reply, no error,
state unchanged, connection left open awaiting the next request. -/
theorem C6_unknown_command_silently_dropped (st : ServerState) (now : Nat) :
    handleRequest ["FOO"] st now = .ok st none
    ∧ handleRequest ["GET"] st now = .ok st none := ⟨rfl, rfl⟩

/-- C7: a non-numeric `PX` milliseconds argument panics the handling task:
`timeout_ms.parse().unwrap()` fails on `"abc"`, so
`SET k v PX abc` aborts instead of replying with an error. -/
theorem C7_px_parse_panics (st : ServerState) (now : Nat) :
    handleRequest ["SET", "k", "v", "PX", "abc"] st now = .panicked
    ∧ parseU64 "abc" = none := ⟨rfl, rfl⟩

/-- C9 counterexample: the source replies to `PING` with
`send_bulk_string(stream, "PONG")` — the wire form `$4\r\nPONG\r\n` — not
the simple string `+PONG\r\n` the claim requires. -/
theorem C9_counterexample :
    handleRequest ["PING"] ⟨[], []⟩ 0 = .ok ⟨[], []⟩ (some (.bulk "PONG"))
    ∧ encodeReply (.bulk "PONG") = "$4\r\nPONG\r\n"
    ∧ encodeReply (.simple "PONG") = "+PONG\r\n"
    ∧ encodeReply (.bulk "PONG") ≠ encodeReply (.simple "PONG") := by decide

/-- C9 (amended): every `PING` request is answered with the *bulk* string
`PONG` (wire form `$4\r\nPONG\r\n`), the state unchanged. -/
theorem C9_ping_replies_bulk_pong (st : ServerState) (now : Nat) :
    handleRequest ["PING"] st now = .ok st (some (.bulk "PONG")) := rfl

/-- C4: stream entry IDs accepted by the spec-modelled `generate_entry_id`
strictly exceed the stream's previous last ID under lexicographic order on
`(milliseconds, sequence)` — so starting from the empty-stream sentinel
`(0,0)`, accepted IDs form a strictly increasing sequence and the first
accepted entry strictly exceeds `(0,0)` — and the reserved ID `0-0` is
rejected with the `Reserved` ("must be greater than 0-0") error. -/
theorem C4_xadd_ids_strictly_increase (last : Nat × Nat) (ms : Nat)
    (seq : Option Nat) (id : Nat × Nat) :
    (generateEntryId last ms seq = .ok id → idLt last id)
    ∧ generateEntryId (0, 0) 0 (some 0) = .error .reserved := by
  constructor
  · intro h
    by_cases h1 : ms < last.1
    · simp [generateEntryId, h1] at h
    · by_cases h2 : ms = last.1
      · cases seq with
        | none =>
          simp [generateEntryId, h1, h2] at h
          subst h
          exact Or.inr ⟨rfl, Nat.lt_succ_self last.2⟩
        | some s =>
          by_cases h3 : s > last.2
          · simp [generateEntryId, h1, h2, h3] at h
            subst h
            exact Or.inr ⟨rfl, h3⟩
          · simp [generateEntryId, h1, h2, h3] at h
            split at h <;> simp at h
      · simp [generateEntryId, h1, h2] at h
        subst h
        refine Or.inl ?_
        show last.1 < ms
        omega
  · rfl

/-- C4 witness: from the empty-stream sentinel `(0,0)`, the explicit request
`5-0` is accepted and strictly exceeds `(0,0)`; `0-0` is rejected as
reserved. -/
theorem C4_xadd_ids_strictly_increase_witness :
    idLt (0, 0) (5, 0) ∧ generateEntryId (0, 0) 0 (some 0) = .error .reserved :=
  ⟨(C4_xadd_ids_strictly_increase (0, 0) 5 none (5, 0)).1 rfl,
   (C4_xadd_ids_strictly_increase (0, 0) 5 none (5, 0)).2⟩

/-- C3 counterexample: client 7 blocks on `BLPOP l 100`, registering a
`StopWaiting` timeout; a later `RPUSH l x` from client 8 delivers
`[l, x]` to waiter 7 — yet the waiter's timeout entry is still in the
reactor's registry after the push: push resolution does not remove the
pending timeout entry in the same operation. -/
theorem C3_counterexample :
    EventLoop.blpop ⟨[], [], []⟩ 7 "l" (some 100)
      = ⟨[("l", ⟨[], [7]⟩)], [(100, EventLoop.REvent.StopWaiting 7 "l")], []⟩
    ∧ EventLoop.rpush ⟨[("l", ⟨[], [7]⟩)], [(100, EventLoop.REvent.StopWaiting 7 "l")], []⟩
        8 "l" ["x"]
      = ⟨[("l", ⟨[], []⟩)], [(100, EventLoop.REvent.StopWaiting 7 "l")],
         [(8, Reply.integer 1), (7, Reply.array ["l", "x"])]⟩
    ∧ (100, EventLoop.REvent.StopWaiting 7 "l")
        ∈ (EventLoop.rpush ⟨[("l", ⟨[], [7]⟩)], [(100, EventLoop.REvent.StopWaiting 7 "l")], []⟩
            8 "l" ["x"]).timeouts := by decide

/-- C3 (amended): a push never touches the timeout registry — the resolved
waiter's timeout entry stays and fires later; double delivery is instead
prevented by the `StopWaiting` handler, which sends a null reply only when
the fd is still in the list's waiting queue and does nothing (state
unchanged) for an already-resolved waiter; and pushes serve waiters
strictly FIFO: with an empty list and waiters `w1 :: ws`, a push of one
element delivers `[key, element]` to `w1` alone, leaving `ws` queued. -/
theorem C3_push_keeps_timeout_entry_but_no_double_delivery :
    (∀ (st : EventLoop.LoopState) (fd : Nat) (key : String) (vals : List String),
        (EventLoop.rpush st fd key vals).timeouts = st.timeouts)
    ∧ (∀ (st : EventLoop.LoopState) (fd : Nat) (key : String) (l : EventLoop.KList),
        EventLoop.lookupList st.lists key = some l →
        EventLoop.position l.waiting fd = none →
        EventLoop.stopWaiting st fd key = some st)
    ∧ (∀ (st : EventLoop.LoopState) (fd : Nat) (key v : String) (w1 : Nat) (ws : List Nat),
        EventLoop.lookupList st.lists key = some ⟨[], w1 :: ws⟩ →
        EventLoop.rpush st fd key [v]
          = { st with
                lists := EventLoop.setList st.lists key ⟨[], ws⟩,
                outputs := st.outputs ++ [(fd, .integer 1), (w1, .array [key, v])] }) := by
  refine ⟨fun st fd key vals => rfl, ?_, ?_⟩
  · intro st fd key l hl hpos
    simp only [EventLoop.stopWaiting, hl, hpos]
  · intro st fd key v w1 ws hl
    simp [EventLoop.rpush, EventLoop.getList, hl, EventLoop.wakeLoop]

/-- C3 witness: the amended theorem at concrete states — the push leaves
the registered timeout in place; `StopWaiting` for an fd no longer waiting
changes nothing; a push with waiters `[7, 9]` delivers to 7 only. -/
theorem C3_push_keeps_timeout_entry_but_no_double_delivery_witness :
    (EventLoop.rpush ⟨[("l", ⟨[], [7]⟩)], [(100, EventLoop.REvent.StopWaiting 7 "l")], []⟩
        8 "l" ["x"]).timeouts = [(100, EventLoop.REvent.StopWaiting 7 "l")]
    ∧ EventLoop.stopWaiting ⟨[("l", ⟨[], []⟩)], [], []⟩ 7 "l"
        = some ⟨[("l", ⟨[], []⟩)], [], []⟩
    ∧ EventLoop.rpush ⟨[("l", ⟨[], [7, 9]⟩)], [], []⟩ 8 "l" ["x"]
        = ⟨[("l", ⟨[], [9]⟩)], [],
           [(8, Reply.integer 1), (7, Reply.array ["l", "x"])]⟩ :=
  ⟨C3_push_keeps_timeout_entry_but_no_double_delivery.1 _ 8 "l" ["x"],
   C3_push_keeps_timeout_entry_but_no_double_delivery.2.1 _ 7 "l" ⟨[], []⟩
     (by decide) (by decide),
   C3_push_keeps_timeout_entry_but_no_double_delivery.2.2 _ 8 "l" "x" 7 [9]
     (by decide)⟩

end Redis
